import Mathlib

/-!
Shallow embedding of the registry-file parser and bottle-configuration
resolver of WineGUI (`src/helper.cc`).

Files on disk are modelled as `List String` (the sequence of lines that
`std::getline` yields, each line assumed newline-terminated so that
`eof()` is not yet set when a line is returned).  A file that cannot be
opened is modelled as `none : Option (List String)`.  C++ `std::string`
contents are modelled as `List Char` / `String`.
-/

namespace WineGui

/-- The `BottleTypes::Windows` enumeration values that occur in the
`WindowsVersions` table of `helper.cc`. -/
inductive Windows where
  | windows10
  | windows81
  | windows8
  | windows2008R2
  | windows7
  | windows2008
  | windowsVista
  | windows2003
  | windowsXP
  | windows2000
  | windowsME
  | windows98
  | windows95
  | windowsNT40
  | windowsNT351
  | windows31
  | windows30
  | windows20
  deriving DecidableEq, Repr

/-- One row of the static `WindowsVersions` table
(`{Windows enum, version tag, version number, build number, product type}`). -/
structure WindowsVersionEntry where
  windows : Windows
  version : String
  versionNumber : String
  buildNumber : String
  productType : String
  deriving DecidableEq, Repr

/-- The static `WindowsVersions[]` table of `helper.cc` (lines 99-117),
in source order.  `BottleTypes::WindowsEnumSize` (declared in
`bottle_types.h`, which is not part of the sources) is, per the comment at
the table, kept equal to the number of rows, so the loops
`for (i = 0; i < WindowsEnumSize; i++)` walk exactly this list. -/
def windows_versions : List WindowsVersionEntry :=
  [⟨.windows10, "win10", "10.0", "18362", "WinNT"⟩,
   ⟨.windows81, "win81", "6.3", "9600", "WinNT"⟩,
   ⟨.windows8, "win8", "6.2", "9200", "WinNT"⟩,
   ⟨.windows2008R2, "win2008r2", "6.1", "7601", "ServerNT"⟩,
   ⟨.windows7, "win7", "6.1", "7601", "WinNT"⟩,
   ⟨.windows2008, "win2008", "6.0", "6002", "ServerNT"⟩,
   ⟨.windowsVista, "vista", "6.0", "6002", "WinNT"⟩,
   ⟨.windows2003, "win2003", "5.2", "3790", "ServerNT"⟩,
   ⟨.windowsXP, "winxp64", "5.2", "3790", "WinNT"⟩,
   ⟨.windowsXP, "winxp", "5.1", "2600", "WinNT"⟩,
   ⟨.windows2000, "win2k", "5.0", "2195", "WinNT"⟩,
   ⟨.windowsME, "winme", "4.90", "3000", ""⟩,
   ⟨.windows98, "win98", "4.10", "2222", ""⟩,
   ⟨.windows95, "win95", "4.0", "950", ""⟩,
   ⟨.windowsNT40, "nt40", "4.0", "1381", "WinNT"⟩,
   ⟨.windowsNT351, "nt351", "3.51", "1057", "WinNT"⟩,
   ⟨.windows31, "win31", "3.10", "0", ""⟩,
   ⟨.windows30, "win30", "3.0", "0", ""⟩,
   ⟨.windows20, "win20", "2.0", "0", ""⟩]

/-! Registry key / value-name constants of `helper.cc` (lines 62-81).
A C++ literal `"\\\\"` is two backslash characters. -/

def RegKeyName9x : String := "[Software\\\\Microsoft\\\\Windows\\\\CurrentVersion]"

def RegKeyNameNT : String := "[Software\\\\Microsoft\\\\Windows NT\\\\CurrentVersion]"

def RegKeyType : String := "[System\\\\CurrentControlSet\\\\Control\\\\ProductOptions]"

def RegKeyWine : String := "[Software\\\\Wine]"

def RegNameNTVersion : String := "CurrentVersion"

def RegNameNTBuildNumber : String := "CurrentBuildNumber"

def RegName9xVersion : String := "VersionNumber"

def RegNameProductType : String := "ProductType"

def RegNameWindowsVersion : String := "Version"

/-- Model of `line.find(pattern)` followed by
`line.substr(pos + pattern.size())`: returns the suffix of `l` after the
first occurrence of `pat`, or `none` when `pat` does not occur in `l`. -/
def substr_after (pat : List Char) : List Char → Option (List Char)
  | [] => if pat.isPrefixOf ([] : List Char) then some [] else none
  | c :: rest =>
    if pat.isPrefixOf (c :: rest) then some ((c :: rest).drop pat.length)
    else substr_after pat rest

/-- Model of the quote removal
`output.erase(std::remove(output.begin(), output.end(), quote), output.end())`:
removes every double-quote character (not only the surrounding ones). -/
def remove_quotes (l : List Char) : List Char :=
  l.filter (fun c => c != '"')

/-- First phase of the scan loops of `get_reg_value` / `get_reg_keys` /
`get_reg_keys_data_filter_ignore`: while `match` is false, set
`match = line.starts_with(key_name)`.  Returns the lines after the first
line that starts with the key, or `none` when no line matches. -/
def find_key (key_name : String) : List String → Option (List String)
  | [] => none
  | line :: rest =>
    if key_name.data.isPrefixOf line.data then some rest else find_key key_name rest

/-- Second phase of `get_reg_value` (helper.cc lines 1404-1414): scan the
lines after a matched key for the first occurrence of `value_pattern`,
return the text after it with all quotes removed. -/
def scan_value (value_pattern : List Char) : List String → String
  | [] => ""
  | line :: rest =>
    match substr_after value_pattern line.data with
    | some suffix => String.mk (remove_quotes suffix)
    | none => scan_value value_pattern rest

/-- The `value_pattern` string of `get_reg_value`: a double quote, the
value name, a double quote and an equals sign. -/
def value_pattern (value_name : String) : List Char :=
  '"' :: value_name.data ++ ['"', '=']

/-- Model of `Helper::get_reg_value` (helper.cc lines 1388-1423) on the
lines of an opened registry file: returns the data of `value_name` under
the first line starting with `key_name`, `""` when the key or the value
is absent. -/
def get_reg_value (lines : List String) (key_name value_name : String) : String :=
  match find_key key_name lines with
  | none => ""
  | some rest => scan_value (value_pattern value_name) rest

/-- Second phase of `Helper::get_reg_keys` (helper.cc lines 1447-1453):
collect lines verbatim until the first empty line, skipping lines that
start with a hash mark. -/
def collect_keys : List String → List String
  | [] => []
  | line :: rest =>
    if line = "" then []
    else if (['#']).isPrefixOf line.data then collect_keys rest
    else line :: collect_keys rest

/-- Model of `Helper::get_reg_keys` (helper.cc lines 1432-1462) on the
lines of an opened registry file. -/
def get_reg_keys (lines : List String) (key_name : String) : List String :=
  match find_key key_name lines with
  | none => []
  | some rest => collect_keys rest

/-- Model of `Helper::split` (helper.cc lines 1640-1654): split on every
occurrence of the delimiter, keeping empty fields; the empty string
yields a single empty field. -/
def split_chars (d : Char) : List Char → List (List Char)
  | [] => [[]]
  | c :: rest =>
    if c = d then [] :: split_chars d rest
    else
      match split_chars d rest with
      | [] => [[c]]
      | f :: fs => (c :: f) :: fs

/-- Model of `Helper::split` on strings. -/
def split (s : String) (d : Char) : List String :=
  (split_chars d s.data).map String.mk

/-- Model of `Helper::get_reg_meta_data` (helper.cc lines 1553-1580) on
the lines of an opened registry file: scan the whole file (no key-section
restriction) for a hash mark followed by the meta value name and an
equals sign, and return the text after it, quotes removed; `""` when
absent. -/
def get_reg_meta_data (lines : List String) (meta_value_name : String) : String :=
  scan_value ('#' :: meta_value_name.data ++ ['=']) lines

/-- Hex-digit test mirroring `std::isxdigit` on the escape decoder's
input characters. -/
def is_hex_digit (c : Char) : Bool :=
  c.isDigit || ('a' ≤ c && c ≤ 'f') || ('A' ≤ c && c ≤ 'F')

/-- Octal-digit test of the octal-escape branch
(`ch >= char 48 && ch <= char 55`). -/
def is_octal_digit (c : Char) : Bool :=
  '0' ≤ c && c ≤ '7'

/-- ASCII lower-casing, mirroring `std::tolower` in the C locale. -/
def to_lower_ascii (c : Char) : Char :=
  if 'A' ≤ c && c ≤ 'Z' then Char.ofNat (c.toNat + 32) else c

/-- Model of the `to_hex` lambda of `unescape_reg_key_data`
(helper.cc line 1681). -/
def to_hex (c : Char) : Nat :=
  if c.isDigit then c.toNat - 48 else (to_lower_ascii c).toNat - 97 + 10

/-- Model of the `wchar_to_utf8` lambda of `unescape_reg_key_data`
(helper.cc lines 1683-1725): encode a code point into UTF-8 bytes
(including the legacy 5- and 6-byte forms), each byte modelled as one
`Char`. -/
def wchar_to_utf8 (wc : Nat) : List Char :=
  if wc ≤ 0x7f then
    [Char.ofNat wc]
  else if wc ≤ 0x7ff then
    [Char.ofNat (0xc0 ||| (wc >>> 6)), Char.ofNat (0x80 ||| (wc &&& 0x3f))]
  else if wc ≤ 0xffff then
    [Char.ofNat (0xe0 ||| (wc >>> 12)), Char.ofNat (0x80 ||| ((wc >>> 6) &&& 0x3f)),
     Char.ofNat (0x80 ||| (wc &&& 0x3f))]
  else if wc ≤ 0x1fffff then
    [Char.ofNat (0xf0 ||| (wc >>> 18)), Char.ofNat (0x80 ||| ((wc >>> 12) &&& 0x3f)),
     Char.ofNat (0x80 ||| ((wc >>> 6) &&& 0x3f)), Char.ofNat (0x80 ||| (wc &&& 0x3f))]
  else if wc ≤ 0x3ffffff then
    [Char.ofNat (0xf8 ||| (wc >>> 24)), Char.ofNat (0x80 ||| ((wc >>> 18) &&& 0x3f)),
     Char.ofNat (0x80 ||| ((wc >>> 12) &&& 0x3f)), Char.ofNat (0x80 ||| ((wc >>> 6) &&& 0x3f)),
     Char.ofNat (0x80 ||| (wc &&& 0x3f))]
  else if wc ≤ 0x7fffffff then
    [Char.ofNat (0xfc ||| (wc >>> 30)), Char.ofNat (0x80 ||| ((wc >>> 24) &&& 0x3f)),
     Char.ofNat (0x80 ||| ((wc >>> 18) &&& 0x3f)), Char.ofNat (0x80 ||| ((wc >>> 12) &&& 0x3f)),
     Char.ofNat (0x80 ||| ((wc >>> 6) &&& 0x3f)), Char.ofNat (0x80 ||| (wc &&& 0x3f))]
  else []

/-- The dispatch of the `switch` statement of `unescape_reg_key_data`
(helper.cc lines 1739-1810) on the character following a backslash:
either a recognized two-character escape producing a control character, a
hex escape, an octal escape, a NUL (which ends the `while` loop), or an
unrecognized escape that falls through to normal character handling. -/
inductive EscAction where
  | stop
  | ctrl (c : Char)
  | hex
  | octal
  | plain
  deriving DecidableEq, Repr

/-- Classification of the character after a backslash, mirroring the
`case` labels of the `switch` (helper.cc lines 1741-1800). -/
def esc_action (e : Char) : EscAction :=
  if e = '\x00' then EscAction.stop
  else if e = 'a' then EscAction.ctrl '\x07'
  else if e = 'b' then EscAction.ctrl '\x08'
  else if e = 'e' then EscAction.ctrl '\x1b'
  else if e = 'f' then EscAction.ctrl '\x0c'
  else if e = 'n' then EscAction.ctrl '\n'
  else if e = 'r' then EscAction.ctrl '\x0d'
  else if e = 't' then EscAction.ctrl '\t'
  else if e = 'v' then EscAction.ctrl '\x0b'
  else if e = 'x' then EscAction.hex
  else if is_octal_digit e then EscAction.octal
  else EscAction.plain

/-- The greedy `std::isxdigit` loop of the hex escape (helper.cc lines
1782-1787): consume up to `n` further hex digits, accumulating base 16. -/
def hex_more : Nat → Nat → List Char → Nat × List Char
  | _, acc, [] => (acc, [])
  | 0, acc, l => (acc, l)
  | n + 1, acc, c :: rest =>
    if is_hex_digit c then hex_more n (acc * 16 + to_hex c) rest else (acc, c :: rest)

/-- The greedy octal-digit loop of the octal escape (helper.cc lines
1803-1806): consume up to `n` further octal digits, accumulating base 8. -/
def oct_more : Nat → Nat → List Char → Nat × List Char
  | _, acc, [] => (acc, [])
  | 0, acc, l => (acc, l)
  | n + 1, acc, c :: rest =>
    if is_octal_digit c then oct_more n (acc * 8 + (c.toNat - 48)) rest else (acc, c :: rest)

/-! Model of the main `while` loop of `Helper::unescape_reg_key_data`
(helper.cc lines 1731-1815) over the character list of the C string
`src.c_str()`.  The C loop runs while the current character is not NUL,
so a NUL anywhere truncates processing; a backslash at the end of the
input breaks out of the loop.  The loop is split into three mutually
recursive functions on an explicit fuel argument so that the recursion is
structural: `unescape_go` is the loop head, `unescape_esc` handles the
character after a backslash, `unescape_hex` the characters after a
backslash-x pair.  Every call strictly decreases the fuel and consumes at
most one extra fuel unit per input character beyond one unit per
character (the hex branch re-processes the character after the pair when
it is not a hex digit), so twice the input length is always enough
fuel. -/

mutual

/-- One iteration of the decoder loop: stop at NUL or end, dispatch a
backslash to `unescape_esc`, otherwise copy the character. -/
def unescape_go : Nat → List Char → List Char
  | _, [] => []
  | 0, _ :: _ => []
  | fuel + 1, c :: rest =>
    if c = '\x00' then []
    else if c = '\\' then unescape_esc fuel rest
    else c :: unescape_go fuel rest

/-- Handling of the character after a backslash, per its `esc_action`
(helper.cc lines 1736-1812): end of string or NUL stops the loop, a
recognized escape emits its control character, hex and octal escapes
decode greedily, anything else is emitted literally. -/
def unescape_esc : Nat → List Char → List Char
  | _, [] => []
  | 0, _ :: _ => []
  | fuel + 1, e :: r1 =>
    match esc_action e with
    | EscAction.stop => []
    | EscAction.ctrl ch => ch :: unescape_go fuel r1
    | EscAction.hex => unescape_hex fuel r1
    | EscAction.octal =>
      let vr := oct_more 2 (e.toNat - 48) r1
      wchar_to_utf8 vr.1 ++ unescape_go fuel vr.2
    | EscAction.plain => e :: unescape_go fuel r1

/-- Handling of the characters after a backslash-x pair (helper.cc lines
1775-1790): when the next character is not a hex digit (or the string
ends) a literal `x` is emitted and that character is re-processed by the
main loop; otherwise one to four hex digits are decoded greedily. -/
def unescape_hex : Nat → List Char → List Char
  | _, [] => ['x']
  | 0, _ :: _ => []
  | fuel + 1, d1 :: r2 =>
    if is_hex_digit d1 then
      let vr := hex_more 3 (to_hex d1) r2
      wchar_to_utf8 vr.1 ++ unescape_go fuel vr.2
    else 'x' :: unescape_go fuel (d1 :: r2)

end

/-- Model of `Helper::unescape_reg_key_data` over a character list: run
the loop with enough fuel for the whole list (twice its length, see the
fuel discipline above). -/
def unescape_chars (l : List Char) : List Char :=
  unescape_go (2 * l.length) l

/-- Model of `Helper::unescape_reg_key_data` on strings. -/
def unescape_reg_key_data (src : String) : String :=
  String.mk (unescape_chars src.data)

/-- Substring containment test mirroring
`line.find(filter) != std::string::npos`. -/
def contains_substr (l pat : List Char) : Bool :=
  (substr_after pat l).isSome

/-- Second phase of `Helper::get_reg_keys_data_filter_ignore` (helper.cc
lines 1517-1535): until the first empty line, unescape each line, keep it
when it does not start with a hash mark and passes the optional inclusion
and exclusion substring filters, then keep only the portion after the
first equals sign with quotes removed (lines without an equals sign are
dropped by the `results.size() greater than 1` check). -/
def collect_keys_data (key_value_filter key_name_ignore_filter : String) :
    List String → List String
  | [] => []
  | line :: rest =>
    if line = "" then []
    else
      let line2 := unescape_reg_key_data line
      if (!(['#']).isPrefixOf line2.data)
          && (key_value_filter = "" || contains_substr line2.data key_value_filter.data)
          && (key_name_ignore_filter = "" || !contains_substr line2.data key_name_ignore_filter.data)
      then
        match split line2 '=' with
        | _ :: second :: _ =>
          String.mk (remove_quotes second.data) :: collect_keys_data key_value_filter key_name_ignore_filter rest
        | _ => collect_keys_data key_value_filter key_name_ignore_filter rest
      else collect_keys_data key_value_filter key_name_ignore_filter rest

/-- Model of `Helper::get_reg_keys_data_filter_ignore` (helper.cc lines
1499-1544) on the lines of an opened registry file. -/
def get_reg_keys_data_filter_ignore (lines : List String)
    (key_name key_value_filter key_name_ignore_filter : String) : List String :=
  match find_key key_name lines with
  | none => []
  | some rest => collect_keys_data key_value_filter key_name_ignore_filter rest

/-- Errors raised by the helper operations (C++ `std::runtime_error` and,
for the `.at()` calls, `std::out_of_range`); the registry-reader
operations keep their exact message text in `reg_error_message`. -/
inductive HelperError where
  | couldNotOpenRegistryFile
  | couldNotDetermineWindowsVersion
  | outOfRange
  deriving DecidableEq, Repr

/-- Modelled from the spec: the designated default Windows version
constant `WineDefaults::WindowsOs` (declared in `wine_defaults.h`, which
is not part of the sources); spec section 4.3 calls it "the designated
default Windows version constant". -/
def WineDefaultWindowsOs : Windows := Windows.windows7

/-- First table loop of the NT branch of `get_windows_version`
(helper.cc lines 555-572): return the first entry whose version number
AND build number match; when a product type was found it must match too,
otherwise the entry is skipped. -/
def find_version_build_type (version build type_nt : String) :
    List WindowsVersionEntry → Option Windows
  | [] => none
  | e :: rest =>
    if e.versionNumber = version && e.buildNumber = build then
      if type_nt ≠ "" then
        if e.productType = type_nt then some e.windows
        else find_version_build_type version build type_nt rest
      else some e.windows
    else find_version_build_type version build type_nt rest

/-- Second (fall-back) table loop of the NT branch (helper.cc lines
575-592): same as the first loop but matching the version number only. -/
def find_version_type (version type_nt : String) :
    List WindowsVersionEntry → Option Windows
  | [] => none
  | e :: rest =>
    if e.versionNumber = version then
      if type_nt ≠ "" then
        if e.productType = type_nt then some e.windows
        else find_version_type version type_nt rest
      else some e.windows
    else find_version_type version type_nt rest

/-- Table loop of the user-registry branch (helper.cc lines 537-544):
exact match on the short version tag. -/
def find_version_tag (win_version : String) :
    List WindowsVersionEntry → Option Windows
  | [] => none
  | e :: rest =>
    if e.version = win_version then some e.windows
    else find_version_tag win_version rest

/-- Table loop of the legacy-9x branch (helper.cc lines 611-618): exact
match on version number and build number, no product-type handling. -/
def find_version_build (version build : String) :
    List WindowsVersionEntry → Option Windows
  | [] => none
  | e :: rest =>
    if e.versionNumber = version && e.buildNumber = build then some e.windows
    else find_version_build version build rest

/-- Model of `Helper::get_windows_version` (helper.cc lines 528-630).
The two registry files of the bottle are passed as
`Option (List String)` (`none` models a file that cannot be opened, in
which case the `get_reg_value` call throws).  The guards
`sizeof(version_list) >= 2` and `sizeof(version_list) >= 3` in the
legacy-9x branch compare the byte size of a `std::vector` object (24 on
the target), not its element count, so they are always true and the
subsequent `version_list.at(1)` / `version_list.at(2)` calls throw
`std::out_of_range` when fewer components exist; the model raises
`HelperError.outOfRange` exactly there. -/
def get_windows_version (user_reg system_reg : Option (List String)) :
    Except HelperError Windows :=
  match user_reg with
  | none => Except.error HelperError.couldNotOpenRegistryFile
  | some user_lines =>
    let win_version := get_reg_value user_lines RegKeyWine RegNameWindowsVersion
    match (if win_version ≠ "" then find_version_tag win_version windows_versions else none) with
    | some w => Except.ok w
    | none =>
      match system_reg with
      | none => Except.error HelperError.couldNotOpenRegistryFile
      | some sys_lines =>
        let version := get_reg_value sys_lines RegKeyNameNT RegNameNTVersion
        if version ≠ "" then
          let build_number_nt := get_reg_value sys_lines RegKeyNameNT RegNameNTBuildNumber
          let type_nt := get_reg_value sys_lines RegKeyType RegNameProductType
          match find_version_build_type version build_number_nt type_nt windows_versions with
          | some w => Except.ok w
          | none =>
            match find_version_type version type_nt windows_versions with
            | some w => Except.ok w
            | none => Except.error HelperError.couldNotDetermineWindowsVersion
        else
          let version9x := get_reg_value sys_lines RegKeyName9x RegName9xVersion
          if version9x ≠ "" then
            let version_list := split version9x '.'
            if version_list.length < 2 then Except.error HelperError.outOfRange
            else
              let current_version := (version_list.getD 0 "") ++ "." ++ (version_list.getD 1 "")
              if version_list.length < 3 then Except.error HelperError.outOfRange
              else
                let current_build_number := version_list.getD 2 ""
                match find_version_build current_version current_build_number windows_versions with
                | some w => Except.ok w
                | none => Except.ok WineDefaultWindowsOs
          else Except.error HelperError.couldNotDetermineWindowsVersion

/-! Path/directory scanner (`Helper::get_bottles_paths`,
`Helper::case_insensitive_compare`). -/

/-- Model of `toupper(static_cast(unsigned char)(x))` in the C locale as
an integer value: ASCII lower-case letters are mapped to upper case,
every other character value is unchanged. -/
def toupper_val (c : Char) : Nat :=
  if 'a' ≤ c && c ≤ 'z' then c.toNat - 32 else c.toNat

/-- Model of `std::lexicographical_compare` over `toupper`-mapped
character values, the body of `Helper::case_insensitive_compare`
(helper.cc lines 1659-1669). -/
def lex_lt_ci : List Char → List Char → Bool
  | _, [] => false
  | [], _ :: _ => true
  | x :: xs, y :: ys =>
    if toupper_val x < toupper_val y then true
    else if toupper_val y < toupper_val x then false
    else lex_lt_ci xs ys

/-- Model of `Helper::case_insensitive_compare` on strings. -/
def case_insensitive_compare (a b : String) : Bool :=
  lex_lt_ci a.data b.data

/-- One comparator-guided insertion, modelling where `std::sort` places
an element relative to already-placed ones. -/
def insert_ci (x : String) : List String → List String
  | [] => [x]
  | y :: ys => if case_insensitive_compare x y then x :: y :: ys else y :: insert_ci x ys

/-- Model of `std::sort(list.begin(), list.end(), case_insensitive_compare)`
as an insertion sort: `std::sort` guarantees a permutation of the input
that is sorted with respect to the strict weak order
`case_insensitive_compare`; insertion sort realises exactly that
contract. -/
def sort_ci : List String → List String
  | [] => []
  | x :: xs => insert_ci x (sort_ci xs)

/-- Modelled from the spec: the well-known default bottle path
`DefaultBottleWineDir`, the `.wine` directory under the home directory
(helper.cc lines 47-48; the home directory is process environment, so a
fixed representative value is used). -/
def DefaultBottleWineDir : String := "/home/user/.wine"

/-- Model of `Glib::build_filename(dir_path, name)`: join with a
directory separator. -/
def build_filename (dir_path name : String) : String :=
  dir_path ++ "/" ++ name

/-- The directory-read loop of `Helper::get_bottles_paths` (helper.cc
lines 150-160): a directory listing is modelled as the list of entry
names `Glib::Dir::read_name` yields, paired with the result of the
`Glib::FileTest::FILE_TEST_IS_DIR` test on the built path; non-directory
entries are skipped. -/
def scan_dirs (dir_path : String) : List (String × Bool) → List String
  | [] => []
  | (name, is_dir) :: rest =>
    if is_dir then build_filename dir_path name :: scan_dirs dir_path rest
    else scan_dirs dir_path rest

/-- Model of `Helper::get_bottles_paths` (helper.cc lines 145-171):
collect the sub-directories, sort them case-insensitively, and append the
default Wine bottle directory when requested and present on disk
(`default_dir_exists` models `dir_exists(DefaultBottleWineDir)`). -/
def get_bottles_paths (dir_path : String) (entries : List (String × Bool))
    (display_default_wine_machine default_dir_exists : Bool) : List String :=
  sort_ci (scan_dirs dir_path entries) ++
    (if display_default_wine_machine && default_dir_exists then [DefaultBottleWineDir] else [])

/-! Registry-reader operations at the file level: the file system is a
map from paths to `Option (List String)`; `none` models a path that
cannot be opened, in which case the C++ code throws a `runtime_error`
whose exact message is `reg_error_message`. -/

/-- The exact message of the `runtime_error` thrown by the registry
readers when the file cannot be opened (helper.cc lines 1420, 1459, 1541
and 1577). -/
def reg_error_message : String := "Could not open registry file!"

/-- Model of `Helper::get_reg_value` including the file-open step. -/
def get_reg_value_io (fs : String → Option (List String))
    (file_path key_name value_name : String) : Except String String :=
  match fs file_path with
  | none => Except.error reg_error_message
  | some lines => Except.ok (get_reg_value lines key_name value_name)

/-- Model of `Helper::get_reg_keys` including the file-open step. -/
def get_reg_keys_io (fs : String → Option (List String))
    (file_path key_name : String) : Except String (List String) :=
  match fs file_path with
  | none => Except.error reg_error_message
  | some lines => Except.ok (get_reg_keys lines key_name)

/-- Model of `Helper::get_reg_meta_data` including the file-open step. -/
def get_reg_meta_data_io (fs : String → Option (List String))
    (file_path meta_value_name : String) : Except String String :=
  match fs file_path with
  | none => Except.error reg_error_message
  | some lines => Except.ok (get_reg_meta_data lines meta_value_name)

/-! Concrete registry files used as inputs of the claim theorems.
Key header lines carry the trailing modification timestamp that Wine
writes after the bracketed key path. -/

/-- Lines of a `system.reg` with NT `CurrentVersion` 6.1, build 7601 and
no `ProductType` value. -/
def c1_system_reg : List String :=
  [("[Software\\\\Microsoft\\\\Windows NT\\\\CurrentVersion] 1000"),
   ("\"CurrentBuildNumber\"=\"7601\""),
   ("\"CurrentVersion\"=\"6.1\"")]

/-- Lines of a `system.reg` with NT `CurrentVersion` 6.1, build 7601 and
a `ProductType` value that matches no table entry. -/
def c2_system_reg : List String :=
  c1_system_reg ++
    [(""),
     ("[System\\\\CurrentControlSet\\\\Control\\\\ProductOptions] 1001"),
     ("\"ProductType\"=\"FooNT\"")]

/-- Lines of a `system.reg` with NT `CurrentVersion` 6.1, a build number
matching no table entry, and `ProductType` `ServerNT`. -/
def c2_witness_system_reg : List String :=
  [("[Software\\\\Microsoft\\\\Windows NT\\\\CurrentVersion] 1000"),
   ("\"CurrentBuildNumber\"=\"9999\""),
   ("\"CurrentVersion\"=\"6.1\""),
   (""),
   ("[System\\\\CurrentControlSet\\\\Control\\\\ProductOptions] 1001"),
   ("\"ProductType\"=\"ServerNT\"")]

/-- Lines of a `system.reg` with only the legacy 9x `VersionNumber`,
holding the two-component value `4.90` (Windows ME reports exactly
`4.90`). -/
def c3_system_reg : List String :=
  [("[Software\\\\Microsoft\\\\Windows\\\\CurrentVersion] 99"),
   ("\"VersionNumber\"=\"4.90\"")]

/-- Lines of a `system.reg` with a three-component legacy 9x
`VersionNumber`. -/
def c3_system_reg_full : List String :=
  [("[Software\\\\Microsoft\\\\Windows\\\\CurrentVersion] 99"),
   ("\"VersionNumber\"=\"4.10.2222\"")]

/-- A registry file whose `Value` contains an interior double-quote
character: the line after the key is `"Name"="va"lue"`. -/
def c4_file : List String :=
  [("[K] 77"),
   ("\"Name\"=\"va\"lue\"")]

/-- A registry file whose key sections are separated by a blank line; the
value name `Val` occurs only in the second section. -/
def c9_file : List String :=
  [("[KeyA] 1"),
   ("\"ValA\"=\"a\""),
   (""),
   ("[KeyB] 2"),
   ("\"Val\"=\"from_b\"")]

/-- A registry file in which the longer key
`[Software\\Wine\\Explorer\\Desktops]` appears before the shorter key
`[Software\\Wine\\Explorer]`; the value name `Default` occurs only in
the `Desktops` section. -/
def c10_file : List String :=
  [("[Software\\\\Wine\\\\Explorer\\\\Desktops] 100"),
   ("\"Default\"=\"1024x768\""),
   (""),
   ("[Software\\\\Wine\\\\Explorer] 200"),
   ("\"Desktop\"=\"Default\"")]

/-- The length of the maximal run of backslash characters at the end of
the list.  A trailing backslash of an escaped string is a lone (truncated)
escape exactly when this run has odd length: the decoder pairs the
backslashes of the run from the left. -/
def trailing_backslashes : List Char → Nat
  | [] => 0
  | c :: rest =>
    if c = '\\' ∧ ∀ x ∈ rest, x = '\\' then rest.length + 1
    else trailing_backslashes rest

/-! General lemmas about the scan loops and the table loops. -/

theorem find_key_append_of_no_match {key : String} {pre : List String}
    (h : ∀ l ∈ pre, key.data.isPrefixOf l.data = false) (rest : List String) :
    find_key key (pre ++ rest) = find_key key rest := by
  induction pre with
  | nil => rfl
  | cons p ps ih =>
    have hp := h p (List.mem_cons_self p ps)
    simp only [List.cons_append, find_key, hp, Bool.false_eq_true, if_false]
    exact ih fun l hl => h l (List.mem_cons_of_mem p hl)

theorem find_key_cons_of_match {key keyline : String} {rest : List String}
    (h : key.data.isPrefixOf keyline.data = true) :
    find_key key (keyline :: rest) = some rest := by
  simp only [find_key, h, if_true]

theorem scan_value_append_of_no_match {pat : List Char} {mid : List String}
    (h : ∀ l ∈ mid, substr_after pat l.data = none) (rest : List String) :
    scan_value pat (mid ++ rest) = scan_value pat rest := by
  induction mid with
  | nil => rfl
  | cons p ps ih =>
    have hp := h p (List.mem_cons_self p ps)
    simp only [List.cons_append, scan_value, hp]
    exact ih fun l hl => h l (List.mem_cons_of_mem p hl)

theorem scan_value_eq_empty {pat : List Char} {mid : List String}
    (h : ∀ l ∈ mid, substr_after pat l.data = none) :
    scan_value pat mid = "" := by
  have := scan_value_append_of_no_match h []
  simpa using this

theorem substr_after_of_prefix {pat suffix : List Char} {c : Char} {cs : List Char}
    (h : c :: cs = pat ++ suffix) :
    substr_after pat (c :: cs) = some suffix := by
  have hpre : pat.isPrefixOf (c :: cs) = true := by
    rw [List.isPrefixOf_iff_prefix, h]
    exact List.prefix_append pat suffix
  simp only [substr_after, hpre, if_true]
  rw [h, List.drop_left]

theorem find_version_build_type_eq_none {ver build type_nt : String}
    (ht : type_nt ≠ "") :
    ∀ l : List WindowsVersionEntry,
      (∀ e ∈ l, ¬(e.versionNumber = ver ∧ e.buildNumber = build ∧ e.productType = type_nt)) →
      find_version_build_type ver build type_nt l = none := by
  intro l
  induction l with
  | nil => intro _; rfl
  | cons e rest ih =>
    intro h
    have he := h e (List.mem_cons_self e rest)
    have hrest := ih fun x hx => h x (List.mem_cons_of_mem e hx)
    simp only [find_version_build_type, ht, ne_eq, not_false_iff, if_true]
    by_cases hvb : e.versionNumber = ver ∧ e.buildNumber = build
    · have hpt : e.productType ≠ type_nt := fun hp => he ⟨hvb.1, hvb.2, hp⟩
      simp [hvb.1, hvb.2, hpt, hrest]
    · have : (decide (e.versionNumber = ver) && decide (e.buildNumber = build)) = false := by
        rcases Decidable.not_and_iff_or_not.mp hvb with h1 | h1 <;> simp [h1]
      simp [this, hrest]

theorem find_version_type_eq_find {ver type_nt : String} (ht : type_nt ≠ "") :
    ∀ l : List WindowsVersionEntry,
      find_version_type ver type_nt l =
        (l.find? fun e => e.versionNumber == ver && e.productType == type_nt).map
          (fun e => e.windows) := by
  intro l
  induction l with
  | nil => rfl
  | cons e rest ih =>
    simp only [find_version_type, ht, ne_eq, not_false_iff, if_true, List.find?]
    by_cases hv : e.versionNumber = ver
    · by_cases hp : e.productType = type_nt
      · simp [hv, hp]
      · have hb : (e.productType == type_nt) = false := beq_eq_false_iff_ne.mpr hp
        simp [hv, hp, ih, hb]
    · have hb : (e.versionNumber == ver) = false := beq_eq_false_iff_ne.mpr hv
      simp [hv, ih, hb]


/-! Lemmas about trailing backslash runs and the escape decoder. -/

theorem tbs_cons_of_ne {c : Char} {l : List Char} (hc : c ≠ '\\') :
    trailing_backslashes (c :: l) = trailing_backslashes l := by
  simp [trailing_backslashes, hc]

theorem tbs_all {l : List Char} (h : ∀ x ∈ l, x = '\\') :
    trailing_backslashes l = l.length := by
  induction l with
  | nil => rfl
  | cons c rest ih =>
    have hc := h c (List.mem_cons_self c rest)
    have hrest : ∀ x ∈ rest, x = '\\' := fun x hx => h x (List.mem_cons_of_mem c hx)
    rw [trailing_backslashes, if_pos ⟨hc, hrest⟩]
    simp

theorem tbs_bs_cons_of_ne {e : Char} {l : List Char} (he : e ≠ '\\') :
    trailing_backslashes ('\\' :: e :: l) = trailing_backslashes l := by
  have hcond : ¬('\\' = '\\' ∧ ∀ x ∈ e :: l, x = '\\') := by
    rintro ⟨-, hall⟩
    exact he (hall e (List.mem_cons_self e l))
  rw [trailing_backslashes, if_neg hcond, tbs_cons_of_ne he]

theorem tbs_bs_bs_parity {l : List Char}
    (h : trailing_backslashes ('\\' :: '\\' :: l) % 2 = 0) :
    trailing_backslashes l % 2 = 0 := by
  by_cases hall : ∀ x ∈ l, x = '\\'
  · have h1 : trailing_backslashes ('\\' :: '\\' :: l) = l.length + 2 := by
      have hcond : ('\\' : Char) = '\\' ∧ ∀ x ∈ ('\\' :: l), x = '\\' := by
        refine ⟨rfl, ?_⟩
        intro x hx
        rcases List.mem_cons.mp hx with rfl | hx
        · rfl
        · exact hall x hx
      rw [trailing_backslashes, if_pos hcond]
      simp
    rw [tbs_all hall]
    rw [h1] at h
    omega
  · have hcond : ¬(('\\' : Char) = '\\' ∧ ∀ x ∈ ('\\' :: l), x = '\\') := by
      rintro ⟨-, hall2⟩
      exact hall fun x hx => hall2 x (List.mem_cons_of_mem _ hx)
    have hcond2 : ¬(('\\' : Char) = '\\' ∧ ∀ x ∈ l, x = '\\') := by
      rintro ⟨-, hall2⟩
      exact hall hall2
    rw [trailing_backslashes, if_neg hcond, trailing_backslashes, if_neg hcond2] at h
    exact h

theorem ne_bs_of_hex {c : Char} (h : is_hex_digit c = true) : c ≠ '\\' := by
  rintro rfl
  exact absurd h (by decide)

theorem ne_bs_of_octal {c : Char} (h : is_octal_digit c = true) : c ≠ '\\' := by
  rintro rfl
  exact absurd h (by decide)

theorem unescape_go_nil (f : Nat) : unescape_go f [] = [] := by cases f <;> rfl

theorem unescape_esc_nil (f : Nat) : unescape_esc f [] = [] := by cases f <;> rfl

theorem unescape_hex_nil (f : Nat) : unescape_hex f [] = ['x'] := by cases f <;> rfl

theorem unescape_go_nul (f : Nat) (rest : List Char) :
    unescape_go (f + 1) ('\x00' :: rest) = [] := rfl

theorem unescape_go_bs (f : Nat) (rest : List Char) :
    unescape_go (f + 1) ('\\' :: rest) = unescape_esc f rest := rfl

theorem unescape_go_plain (f : Nat) (c : Char) (rest : List Char)
    (h0 : c ≠ '\x00') (hb : c ≠ '\\') :
    unescape_go (f + 1) (c :: rest) = c :: unescape_go f rest := by
  show (if c = '\x00' then [] else if c = '\\' then unescape_esc f rest
    else c :: unescape_go f rest) = c :: unescape_go f rest
  rw [if_neg h0, if_neg hb]

theorem unescape_esc_step (f : Nat) (e : Char) (r1 : List Char) :
    unescape_esc (f + 1) (e :: r1) =
      match esc_action e with
      | EscAction.stop => []
      | EscAction.ctrl ch => ch :: unescape_go f r1
      | EscAction.hex => unescape_hex f r1
      | EscAction.octal =>
        wchar_to_utf8 (oct_more 2 (e.toNat - 48) r1).1 ++
          unescape_go f (oct_more 2 (e.toNat - 48) r1).2
      | EscAction.plain => e :: unescape_go f r1 := rfl

theorem unescape_hex_pos (f : Nat) (d1 : Char) (r2 : List Char)
    (h : is_hex_digit d1 = true) :
    unescape_hex (f + 1) (d1 :: r2) =
      wchar_to_utf8 (hex_more 3 (to_hex d1) r2).1 ++
        unescape_go f (hex_more 3 (to_hex d1) r2).2 := by
  show (if is_hex_digit d1 then
      wchar_to_utf8 (hex_more 3 (to_hex d1) r2).1 ++ unescape_go f (hex_more 3 (to_hex d1) r2).2
    else 'x' :: unescape_go f (d1 :: r2)) = _
  rw [if_pos h]

theorem unescape_hex_neg (f : Nat) (d1 : Char) (r2 : List Char)
    (h : ¬ is_hex_digit d1 = true) :
    unescape_hex (f + 1) (d1 :: r2) = 'x' :: unescape_go f (d1 :: r2) := by
  show (if is_hex_digit d1 then
      wchar_to_utf8 (hex_more 3 (to_hex d1) r2).1 ++ unescape_go f (hex_more 3 (to_hex d1) r2).2
    else 'x' :: unescape_go f (d1 :: r2)) = _
  rw [if_neg h]

theorem hex_more_append_bs : ∀ (n acc : Nat) (l : List Char),
    hex_more n acc (l ++ [('\\')]) =
      ((hex_more n acc l).1, (hex_more n acc l).2 ++ [('\\')]) := by
  intro n acc l
  induction l generalizing n acc with
  | nil =>
    cases n with
    | zero => rfl
    | succ n => rfl
  | cons c rest ih =>
    cases n with
    | zero => rfl
    | succ n =>
      by_cases hc : is_hex_digit c = true
      · simp only [List.cons_append, hex_more, hc, if_true]
        exact ih n (acc * 16 + to_hex c)
      · simp [List.cons_append, hex_more, hc]

theorem oct_more_append_bs : ∀ (n acc : Nat) (l : List Char),
    oct_more n acc (l ++ [('\\')]) =
      ((oct_more n acc l).1, (oct_more n acc l).2 ++ [('\\')]) := by
  intro n acc l
  induction l generalizing n acc with
  | nil =>
    cases n with
    | zero => rfl
    | succ n => rfl
  | cons c rest ih =>
    cases n with
    | zero => rfl
    | succ n =>
      by_cases hc : is_octal_digit c = true
      · simp only [List.cons_append, oct_more, hc, if_true]
        exact ih n (acc * 8 + (c.toNat - 48))
      · simp [List.cons_append, oct_more, hc]

theorem hex_more_length : ∀ (n acc : Nat) (l : List Char),
    (hex_more n acc l).2.length ≤ l.length := by
  intro n acc l
  induction l generalizing n acc with
  | nil => cases n <;> simp [hex_more]
  | cons c rest ih =>
    cases n with
    | zero => simp [hex_more]
    | succ n =>
      by_cases hc : is_hex_digit c = true
      · simp only [hex_more, hc, if_true]
        exact le_trans (ih n _) (by simp)
      · simp [hex_more, hc]

theorem oct_more_length : ∀ (n acc : Nat) (l : List Char),
    (oct_more n acc l).2.length ≤ l.length := by
  intro n acc l
  induction l generalizing n acc with
  | nil => cases n <;> simp [oct_more]
  | cons c rest ih =>
    cases n with
    | zero => simp [oct_more]
    | succ n =>
      by_cases hc : is_octal_digit c = true
      · simp only [oct_more, hc, if_true]
        exact le_trans (ih n _) (by simp)
      · simp [oct_more, hc]

theorem hex_more_tbs : ∀ (n acc : Nat) (l : List Char),
    trailing_backslashes l % 2 = 0 →
      trailing_backslashes (hex_more n acc l).2 % 2 = 0 := by
  intro n acc l
  induction l generalizing n acc with
  | nil => intro h; cases n <;> simpa [hex_more] using h
  | cons c rest ih =>
    intro h
    cases n with
    | zero => simpa [hex_more] using h
    | succ n =>
      by_cases hc : is_hex_digit c = true
      · simp only [hex_more, hc, if_true]
        exact ih n _ (by rwa [tbs_cons_of_ne (ne_bs_of_hex hc)] at h)
      · simpa [hex_more, hc] using h

theorem oct_more_tbs : ∀ (n acc : Nat) (l : List Char),
    trailing_backslashes l % 2 = 0 →
      trailing_backslashes (oct_more n acc l).2 % 2 = 0 := by
  intro n acc l
  induction l generalizing n acc with
  | nil => intro h; cases n <;> simpa [oct_more] using h
  | cons c rest ih =>
    intro h
    cases n with
    | zero => simpa [oct_more] using h
    | succ n =>
      by_cases hc : is_octal_digit c = true
      · simp only [oct_more, hc, if_true]
        exact ih n _ (by rwa [tbs_cons_of_ne (ne_bs_of_octal hc)] at h)
      · simpa [oct_more, hc] using h

theorem esc_action_ctrl_ne_bs {e ch : Char} (h : esc_action e = EscAction.ctrl ch) :
    e ≠ '\\' := by
  rintro rfl
  exact absurd h (by simp [esc_action, show is_octal_digit '\\' = false from rfl])

theorem esc_action_hex_ne_bs {e : Char} (h : esc_action e = EscAction.hex) :
    e ≠ '\\' := by
  rintro rfl
  exact absurd h (by simp [esc_action, show is_octal_digit '\\' = false from rfl])

theorem esc_action_octal_ne_bs {e : Char} (h : esc_action e = EscAction.octal) :
    e ≠ '\\' := by
  rintro rfl
  exact absurd h (by simp [esc_action, show is_octal_digit '\\' = false from rfl])

theorem unescape_append_bs_parts : ∀ fuel : Nat,
    (∀ l : List Char, 2 * l.length ≤ fuel → trailing_backslashes l % 2 = 0 →
      unescape_go (fuel + 2) (l ++ [('\\')]) = unescape_go fuel l) ∧
    (∀ l : List Char, 2 * l.length + 1 ≤ fuel →
      trailing_backslashes ('\\' :: l) % 2 = 0 →
      unescape_esc (fuel + 2) (l ++ [('\\')]) = unescape_esc fuel l) ∧
    (∀ l : List Char, 2 * l.length + 1 ≤ fuel → trailing_backslashes l % 2 = 0 →
      unescape_hex (fuel + 2) (l ++ [('\\')]) = unescape_hex fuel l) := by
  intro fuel
  induction fuel using Nat.strong_induction_on with
  | _ fuel ih =>
    refine ⟨?_, ?_, ?_⟩
    · -- the main loop
      intro l hlen hp
      cases l with
      | nil =>
        rw [List.nil_append, unescape_go_nil]
        exact (unescape_go_bs (fuel + 1) []).trans (unescape_esc_nil (fuel + 1))
      | cons c rest =>
        cases fuel with
        | zero => simp at hlen
        | succ f =>
          have hf : f < f + 1 := Nat.lt_succ_self f
          by_cases hc0 : c = '\x00'
          · subst hc0
            exact (unescape_go_nul (f + 2) (rest ++ [('\\')])).trans
              (unescape_go_nul f rest).symm
          · by_cases hcb : c = '\\'
            · subst hcb
              have h1 : 2 * rest.length + 1 ≤ f := by
                simp only [List.length_cons] at hlen; omega
              exact (unescape_go_bs (f + 2) (rest ++ [('\\')])).trans
                (((ih f hf).2.1 rest h1 hp).trans (unescape_go_bs f rest).symm)
            · have h1 : 2 * rest.length ≤ f := by
                simp only [List.length_cons] at hlen; omega
              have h2 : trailing_backslashes rest % 2 = 0 := by
                rwa [tbs_cons_of_ne hcb] at hp
              exact (unescape_go_plain (f + 2) c (rest ++ [('\\')]) hc0 hcb).trans
                ((congrArg (List.cons c) ((ih f hf).1 rest h1 h2)).trans
                  (unescape_go_plain f c rest hc0 hcb).symm)
    · -- after a backslash
      intro l hlen hp
      cases l with
      | nil => exact absurd hp (by decide)
      | cons e r1 =>
        cases fuel with
        | zero => simp at hlen
        | succ f =>
          have hf : f < f + 1 := Nat.lt_succ_self f
          refine (unescape_esc_step (f + 2) e (r1 ++ [('\\')])).trans
            (Eq.trans ?_ (unescape_esc_step f e r1).symm)
          cases hact : esc_action e with
          | stop => rfl
          | ctrl ch =>
            have h1 : 2 * r1.length ≤ f := by
              simp only [List.length_cons] at hlen; omega
            have h2 : trailing_backslashes r1 % 2 = 0 := by
              rwa [tbs_bs_cons_of_ne (esc_action_ctrl_ne_bs hact)] at hp
            exact congrArg (List.cons ch) ((ih f hf).1 r1 h1 h2)
          | hex =>
            have h1 : 2 * r1.length + 1 ≤ f := by
              simp only [List.length_cons] at hlen; omega
            have h2 : trailing_backslashes r1 % 2 = 0 := by
              rwa [tbs_bs_cons_of_ne (esc_action_hex_ne_bs hact)] at hp
            exact (ih f hf).2.2 r1 h1 h2
          | octal =>
            rw [oct_more_append_bs]
            have h1 : 2 * (oct_more 2 (e.toNat - 48) r1).2.length ≤ f := by
              have := oct_more_length 2 (e.toNat - 48) r1
              simp only [List.length_cons] at hlen; omega
            have h2 : trailing_backslashes (oct_more 2 (e.toNat - 48) r1).2 % 2 = 0 :=
              oct_more_tbs 2 (e.toNat - 48) r1
                (by rwa [tbs_bs_cons_of_ne (esc_action_octal_ne_bs hact)] at hp)
            exact congrArg (wchar_to_utf8 (oct_more 2 (e.toNat - 48) r1).1 ++ ·)
              ((ih f hf).1 _ h1 h2)
          | plain =>
            by_cases heb : e = '\\'
            · subst heb
              have h1 : 2 * r1.length ≤ f := by
                simp only [List.length_cons] at hlen; omega
              have h2 := tbs_bs_bs_parity hp
              exact congrArg (List.cons _) ((ih f hf).1 r1 h1 h2)
            · have h1 : 2 * r1.length ≤ f := by
                simp only [List.length_cons] at hlen; omega
              have h2 : trailing_backslashes r1 % 2 = 0 := by
                rwa [tbs_bs_cons_of_ne heb] at hp
              exact congrArg (List.cons e) ((ih f hf).1 r1 h1 h2)
    · -- after a backslash-x pair
      intro l hlen hp
      cases l with
      | nil =>
        rw [List.nil_append, unescape_hex_nil]
        refine (unescape_hex_neg (fuel + 1) '\\' [] (by decide)).trans ?_
        rw [unescape_go_bs, unescape_esc_nil]
      | cons d1 r2 =>
        cases fuel with
        | zero => simp at hlen
        | succ f =>
          have hf : f < f + 1 := Nat.lt_succ_self f
          by_cases hd1 : is_hex_digit d1 = true
          · refine (unescape_hex_pos (f + 2) d1 (r2 ++ [('\\')]) hd1).trans
              (Eq.trans ?_ (unescape_hex_pos f d1 r2 hd1).symm)
            rw [hex_more_append_bs]
            have h1 : 2 * (hex_more 3 (to_hex d1) r2).2.length ≤ f := by
              have := hex_more_length 3 (to_hex d1) r2
              simp only [List.length_cons] at hlen; omega
            have h2 : trailing_backslashes (hex_more 3 (to_hex d1) r2).2 % 2 = 0 :=
              hex_more_tbs 3 (to_hex d1) r2
                (by rwa [tbs_cons_of_ne (ne_bs_of_hex hd1)] at hp)
            exact congrArg (wchar_to_utf8 (hex_more 3 (to_hex d1) r2).1 ++ ·)
              ((ih f hf).1 _ h1 h2)
          · have h1 : 2 * (d1 :: r2).length ≤ f := by
              simp only [List.length_cons] at hlen ⊢; omega
            exact (unescape_hex_neg (f + 2) d1 (r2 ++ [('\\')]) hd1).trans
              ((congrArg (List.cons 'x') ((ih f hf).1 (d1 :: r2) h1 hp)).trans
                (unescape_hex_neg f d1 r2 hd1).symm)

/-! The claim theorems. -/

/-- Claim C1, amended: for a bottle whose user registry has no Wine
`Version` value and whose system registry reports NT `CurrentVersion`
`6.1` and `CurrentBuildNumber` `7601` with no `ProductType` value,
`get_windows_version` returns Windows2008R2 — the first table entry whose
version number and build number both match (the entry precedes Windows7
in the table, and with no product type present the product type is not
checked). -/
theorem c1_first_version_build_match (user sys : List String)
    (hu : get_reg_value user RegKeyWine RegNameWindowsVersion = "")
    (hv : get_reg_value sys RegKeyNameNT RegNameNTVersion = "6.1")
    (hb : get_reg_value sys RegKeyNameNT RegNameNTBuildNumber = "7601")
    (ht : get_reg_value sys RegKeyType RegNameProductType = "") :
    get_windows_version (some user) (some sys) = Except.ok Windows.windows2008R2 := by
  simp only [get_windows_version, hu, hv, hb, ht]
  rfl

theorem c1_first_version_build_match_witness :
    get_reg_value ([] : List String) RegKeyWine RegNameWindowsVersion = "" ∧
      get_reg_value c1_system_reg RegKeyNameNT RegNameNTVersion = "6.1" ∧
      get_windows_version (some []) (some c1_system_reg) = Except.ok Windows.windows2008R2 :=
  ⟨rfl, rfl, c1_first_version_build_match [] c1_system_reg rfl rfl rfl rfl⟩

/-- Counterexample to claim C1 as stated: on exactly the claimed
registry contents the resolver returns Windows2008R2, which is not
Windows7. -/
theorem c1_counterexample :
    get_windows_version (some []) (some c1_system_reg) = Except.ok Windows.windows2008R2 ∧
      Windows.windows2008R2 ≠ Windows.windows7 :=
  ⟨rfl, by decide⟩

/-- Claim C2, amended: in NT-style resolution, when a `ProductType`
value is present but no table entry matches version number, build number
and product type together, `get_windows_version` does NOT fall back to a
version+build match; it falls back to the first entry whose version
number and product type both match (ignoring the build number), and
raises an error when no such entry exists. -/
theorem c2_product_type_fallback (user sys : List String) (ver build type_nt : String)
    (hu : get_reg_value user RegKeyWine RegNameWindowsVersion = "")
    (hv : get_reg_value sys RegKeyNameNT RegNameNTVersion = ver)
    (hver : ver ≠ "")
    (hb : get_reg_value sys RegKeyNameNT RegNameNTBuildNumber = build)
    (ht : get_reg_value sys RegKeyType RegNameProductType = type_nt)
    (htype : type_nt ≠ "")
    (hnone : ∀ e ∈ windows_versions,
      ¬(e.versionNumber = ver ∧ e.buildNumber = build ∧ e.productType = type_nt)) :
    get_windows_version (some user) (some sys) =
      match windows_versions.find? (fun e => e.versionNumber == ver && e.productType == type_nt) with
      | some e => Except.ok e.windows
      | none => Except.error HelperError.couldNotDetermineWindowsVersion := by
  simp only [get_windows_version, hu, hv, hb, ht, hver, ne_eq, not_false_iff, if_true,
    find_version_build_type_eq_none htype windows_versions hnone,
    find_version_type_eq_find htype windows_versions]
  cases windows_versions.find? (fun e => e.versionNumber == ver && e.productType == type_nt) with
  | none => rfl
  | some e => rfl

theorem c2_product_type_fallback_witness :
    get_reg_value c2_witness_system_reg RegKeyType RegNameProductType = "ServerNT" ∧
      (∀ e ∈ windows_versions,
        ¬(e.versionNumber = "6.1" ∧ e.buildNumber = "9999" ∧ e.productType = "ServerNT")) ∧
      get_windows_version (some []) (some c2_witness_system_reg) =
        Except.ok Windows.windows2008R2 :=
  ⟨rfl, by decide,
    (c2_product_type_fallback [] c2_witness_system_reg ("6.1") ("9999") ("ServerNT")
      rfl rfl (by decide) rfl rfl (by decide) (by decide)).trans rfl⟩

/-- Counterexample to claim C2 as stated: with version `6.1`, build
`7601` and the unmatched product type `FooNT`, the code raises the
could-not-determine error instead of returning the first version+build
match Windows2008R2. -/
theorem c2_counterexample :
    get_windows_version (some []) (some c2_system_reg) =
        Except.error HelperError.couldNotDetermineWindowsVersion ∧
      Except.error HelperError.couldNotDetermineWindowsVersion ≠
        (Except.ok Windows.windows2008R2 : Except HelperError Windows) :=
  ⟨rfl, fun h => Except.noConfusion h⟩

/-- Claim C3, code bug: the legacy-9x branch evaluates
`sizeof(version_list) >= 2` / `>= 3`, the byte size of the vector object
rather than its element count, so both guards are always true and
`version_list.at(2)` throws `std::out_of_range` for the two-component
value `4.90`; a three-component value such as `4.10.2222` resolves
normally.  The claim (never raises in this branch) matches the spec's
stated intent, which the spec itself records as a defect of the source. -/
theorem c3_out_of_range_on_two_component_version :
    get_windows_version (some []) (some c3_system_reg) = Except.error HelperError.outOfRange ∧
      get_windows_version (some []) (some c3_system_reg_full) = Except.ok Windows.windows98 :=
  ⟨rfl, rfl⟩

theorem remove_quotes_wrap (value : List Char) :
    remove_quotes ('"' :: value ++ ['"']) = remove_quotes value := by
  simp [remove_quotes, List.filter_append]

/-- Claim C4, amended: for a registry file with a matched key section
holding a quoted name-equals-value line, `get_reg_value` returns the text
after the equals sign with ALL double-quote characters removed (so the
surrounding quotes are stripped, and any quote characters inside the
value are removed as well, rather than the interior being unchanged), and
returns the empty string, not an error, when the value pattern does not
occur after the matched key. -/
theorem c4_value_extraction (pre mid post : List String) (key_name keyline name value : String)
    (hpre : ∀ l ∈ pre, key_name.data.isPrefixOf l.data = false)
    (hkey : key_name.data.isPrefixOf keyline.data = true)
    (hmid : ∀ l ∈ mid, substr_after (value_pattern name) l.data = none) :
    get_reg_value (pre ++ keyline :: (mid ++ ("\"" ++ name ++ "\"=\"" ++ value ++ "\"") :: post))
        key_name name = String.mk (remove_quotes value.data) ∧
      get_reg_value (pre ++ keyline :: mid) key_name name = "" := by
  constructor
  · have hline : ("\"" ++ name ++ "\"=\"" ++ value ++ "\"").data
        = value_pattern name ++ ('"' :: value.data ++ ['"']) := by
      simp [String.data_append, value_pattern]
    have hsub : substr_after (value_pattern name)
        ("\"" ++ name ++ "\"=\"" ++ value ++ "\"").data
          = some ('"' :: value.data ++ ['"']) := by
      rcases hd : ("\"" ++ name ++ "\"=\"" ++ value ++ "\"").data with _ | ⟨c, cs⟩
      · rw [hd] at hline
        exact absurd hline.symm (by simp [value_pattern])
      · rw [hd] at hline
        exact substr_after_of_prefix hline
    simp only [get_reg_value, find_key_append_of_no_match hpre,
      find_key_cons_of_match hkey, scan_value_append_of_no_match hmid, scan_value, hsub,
      remove_quotes_wrap]
  · simp only [get_reg_value, find_key_append_of_no_match hpre, find_key_cons_of_match hkey,
      scan_value_eq_empty hmid]

theorem c4_value_extraction_witness :
    get_reg_value [("junk"), ("[K] 1"), ("\"Other\"=\"0\""), ("\"Name\"=\"Val\"")]
        ("[K]") ("Name") = "Val" ∧
      get_reg_value [("junk"), ("[K] 1"), ("\"Other\"=\"0\"")] ("[K]") ("Name") = "" := by
  have h := c4_value_extraction [("junk")] [("\"Other\"=\"0\"")] [] ("[K]") ("[K] 1")
    ("Name") ("Val") (by decide) (by decide) (by decide)
  exact ⟨h.1.trans rfl, h.2⟩

/-- Counterexample to claim C4 as stated: a value whose interior
contains a double quote does not come back unchanged — the interior
quote is removed too. -/
theorem c4_counterexample :
    get_reg_value c4_file ("[K]") ("Name") = "value" ∧
      ("value" : String) ≠ "va\"lue" :=
  ⟨rfl, by decide⟩

/-- Claim C6, confirmed: `unescape_reg_key_data` decodes the escape
sequences backslash-n, backslash-t, backslash-x41 and backslash-101 to
newline, tab, `A` and `A` respectively, and decodes the unrecognized
escape backslash-q to the literal `q` (backslash dropped, next character
passed through). -/
theorem c6_escape_decoding :
    unescape_reg_key_data ("\\n") = "\n" ∧ unescape_reg_key_data ("\\t") = "\t" ∧
      unescape_reg_key_data ("\\x41") = "A" ∧ unescape_reg_key_data ("\\101") = "A" ∧
      unescape_reg_key_data ("\\q") = "q" :=
  ⟨rfl, rfl, rfl, rfl, rfl⟩

/-- Claim C9, confirmed: once `get_reg_value` has matched a key header
line, its value scan is not bounded by the key's section — it does not
stop at the first blank line, so for this file the lookup under `[KeyA]`
returns the value of `Val` from the later `[KeyB]` section (the first
occurrence of the pattern anywhere after the header line), while
`get_reg_keys` on the same file does stop at the blank line. -/
theorem c9_scan_crosses_section_boundary :
    get_reg_value c9_file ("[KeyA]") ("Val") = "from_b" ∧
      get_reg_keys c9_file ("[KeyA]") = [("\"ValA\"=\"a\"")] :=
  ⟨rfl, rfl⟩

/-- Claim C10, amended: key-section matching in `get_reg_value`,
`get_reg_keys` and `get_reg_keys_data_filter_ignore` is prefix-based — a
line matches when it starts with the given key string, so a header with
trailing content (such as Wine's timestamp) matches, and a key written
WITHOUT its closing bracket matches the header of a longer key path that
appears first; but the full bracketed key (as used by the code's
constants) does not match the longer header, because its closing bracket
differs from the backslash continuing the longer path. -/
theorem c10_prefix_key_matching :
    (∀ suffix : String,
        get_reg_value [("[Software\\\\Wine\\\\Explorer]" ++ suffix), ("\"Desktop\"=\"Default\"")]
          ("[Software\\\\Wine\\\\Explorer]") ("Desktop") = "Default") ∧
      get_reg_value c10_file ("[Software\\\\Wine\\\\Explorer") ("Default") = "1024x768" ∧
      get_reg_keys c10_file ("[Software\\\\Wine\\\\Explorer") = [("\"Default\"=\"1024x768\"")] ∧
      get_reg_keys_data_filter_ignore c10_file ("[Software\\\\Wine\\\\Explorer") ("") ("")
        = [("1024x768")] ∧
      get_reg_value c10_file ("[Software\\\\Wine\\\\Explorer]") ("Default") = "" := by
  refine ⟨?_, rfl, rfl, rfl, rfl⟩
  intro suffix
  have hp : ("[Software\\\\Wine\\\\Explorer]").data.isPrefixOf
      (("[Software\\\\Wine\\\\Explorer]" ++ suffix)).data = true := by
    rw [List.isPrefixOf_iff_prefix, String.data_append]
    exact List.prefix_append _ _
  simp only [get_reg_value, find_key_cons_of_match hp]
  rfl

/-- Counterexample to claim C10 as stated: the bracketed lookup key
does not match the longer `Desktops` header even when that header
appears first — the lookup skips it and returns the empty string rather
than the `Desktops` section's value. -/
theorem c10_counterexample :
    get_reg_value c10_file ("[Software\\\\Wine\\\\Explorer]") ("Default") = "" ∧
      get_reg_value c10_file ("[Software\\\\Wine\\\\Explorer]") ("Default") ≠ "1024x768" :=
  ⟨rfl, by decide⟩

/-- Claim C5, amended: for every registry-reader operation
(`get_reg_value`, `get_reg_keys`, `get_reg_meta_data`), an unopenable
file path fails with the fixed I/O error message
"Could not open registry file!", which does not name the file; when the
file opens but the key or value is absent, the operation returns an
empty result without error. -/
theorem c5_open_error_and_absent_empty :
    (∀ (fs : String → Option (List String)) (p k v : String), fs p = none →
        get_reg_value_io fs p k v = Except.error reg_error_message) ∧
      (∀ (fs : String → Option (List String)) (p k : String), fs p = none →
        get_reg_keys_io fs p k = Except.error reg_error_message) ∧
      (∀ (fs : String → Option (List String)) (p v : String), fs p = none →
        get_reg_meta_data_io fs p v = Except.error reg_error_message) ∧
      (∀ (fs : String → Option (List String)) (p k v : String) (lines : List String),
        fs p = some lines → find_key k lines = none →
        get_reg_value_io fs p k v = Except.ok "") ∧
      (∀ (fs : String → Option (List String)) (p k v : String) (lines rest : List String),
        fs p = some lines → find_key k lines = some rest →
        (∀ l ∈ rest, substr_after (value_pattern v) l.data = none) →
        get_reg_value_io fs p k v = Except.ok "") ∧
      (∀ (fs : String → Option (List String)) (p k : String) (lines : List String),
        fs p = some lines → find_key k lines = none →
        get_reg_keys_io fs p k = Except.ok []) ∧
      (∀ (fs : String → Option (List String)) (p v : String) (lines : List String),
        fs p = some lines →
        (∀ l ∈ lines, substr_after ('#' :: v.data ++ ['=']) l.data = none) →
        get_reg_meta_data_io fs p v = Except.ok "") := by
  refine ⟨?_, ?_, ?_, ?_, ?_, ?_, ?_⟩
  · intro fs p k v h
    simp [get_reg_value_io, h]
  · intro fs p k h
    simp [get_reg_keys_io, h]
  · intro fs p v h
    simp [get_reg_meta_data_io, h]
  · intro fs p k v lines h hk
    simp [get_reg_value_io, h, get_reg_value, hk]
  · intro fs p k v lines rest h hk hval
    simp [get_reg_value_io, h, get_reg_value, hk, scan_value_eq_empty hval]
  · intro fs p k lines h hk
    simp [get_reg_keys_io, h, get_reg_keys, hk]
  · intro fs p v lines h hval
    simp only [get_reg_meta_data_io, h, get_reg_meta_data]
    rw [scan_value_eq_empty hval]

theorem c5_open_error_and_absent_empty_witness :
    get_reg_value_io (fun _ => none) ("/bottles/mybottle/user.reg") RegKeyWine
        RegNameWindowsVersion = Except.error reg_error_message ∧
      get_reg_keys_io (fun _ => none) ("/bottles/mybottle/system.reg") RegKeyWine
        = Except.error reg_error_message ∧
      get_reg_meta_data_io (fun _ => none) ("/bottles/mybottle/user.reg") ("arch")
        = Except.error reg_error_message ∧
      get_reg_value_io (fun _ => some [("[Other] 1"), ("\"A\"=\"1\"")])
        ("/bottles/mybottle/user.reg") RegKeyWine RegNameWindowsVersion = Except.ok "" ∧
      get_reg_value_io (fun _ => some [("[Software\\\\Wine] 1"), ("\"A\"=\"1\"")])
        ("/bottles/mybottle/user.reg") RegKeyWine RegNameWindowsVersion = Except.ok "" ∧
      get_reg_keys_io (fun _ => some [("[Other] 1")]) ("/bottles/mybottle/system.reg")
        RegKeyWine = Except.ok [] ∧
      get_reg_meta_data_io (fun _ => some [("[Other] 1"), ("\"A\"=\"1\"")])
        ("/bottles/mybottle/user.reg") ("arch") = Except.ok "" := by
  obtain ⟨h1, h2, h3, h4, h5, h6, h7⟩ := c5_open_error_and_absent_empty
  refine ⟨h1 _ _ _ _ rfl, h2 _ _ _ rfl, h3 _ _ _ rfl,
    h4 _ _ _ _ ([("[Other] 1"), ("\"A\"=\"1\"")]) rfl (by decide),
    h5 _ _ _ _ ([("[Software\\\\Wine] 1"), ("\"A\"=\"1\"")]) ([("\"A\"=\"1\"")]) rfl rfl (by decide),
    h6 _ _ _ ([("[Other] 1")]) rfl (by decide),
    h7 _ _ _ ([("[Other] 1"), ("\"A\"=\"1\"")]) rfl (by decide)⟩

/-- Counterexample to claim C5 as stated: the open-failure error
message is a fixed string that does not contain the offending file
path. -/
theorem c5_counterexample :
    get_reg_value_io (fun _ => none) ("/bottles/mybottle/user.reg") RegKeyWine
        RegNameWindowsVersion = Except.error reg_error_message ∧
      ¬(("/bottles/mybottle/user.reg").data <:+: reg_error_message.data) :=
  ⟨rfl, by decide⟩

theorem lex_lt_ci_asymm : ∀ a b, lex_lt_ci a b = true → lex_lt_ci b a = true → False := by
  intro a
  induction a with
  | nil =>
    intro b h1 h2
    cases b with
    | nil => simp [lex_lt_ci] at h1
    | cons y ys => simp [lex_lt_ci] at h2
  | cons x xs ih =>
    intro b h1 h2
    cases b with
    | nil => simp [lex_lt_ci] at h1
    | cons y ys =>
      simp only [lex_lt_ci] at h1 h2
      split_ifs at h1 h2 <;> first | omega | exact ih ys h1 h2

theorem lex_lt_ci_trans : ∀ a b c, lex_lt_ci a b = true → lex_lt_ci b c = true →
    lex_lt_ci a c = true := by
  intro a
  induction a with
  | nil =>
    intro b c h1 h2
    cases b with
    | nil => simp [lex_lt_ci] at h1
    | cons y ys =>
      cases c with
      | nil => simp [lex_lt_ci] at h2
      | cons z zs => simp [lex_lt_ci]
  | cons x xs ih =>
    intro b c h1 h2
    cases b with
    | nil => simp [lex_lt_ci] at h1
    | cons y ys =>
      cases c with
      | nil => simp [lex_lt_ci] at h2
      | cons z zs =>
        simp only [lex_lt_ci] at h1 h2 ⊢
        split_ifs at h1 h2 ⊢ <;> first | rfl | omega | exact ih ys zs h1 h2

theorem insert_ci_perm (x : String) : ∀ l, (insert_ci x l).Perm (x :: l) := by
  intro l
  induction l with
  | nil => rfl
  | cons y ys ih =>
    simp only [insert_ci]
    by_cases h : case_insensitive_compare x y = true
    · simp [h]
    · simp only [h, if_false]
      exact (ih.cons y).trans (List.Perm.swap x y ys)

theorem sort_ci_perm : ∀ l, (sort_ci l).Perm l := by
  intro l
  induction l with
  | nil => rfl
  | cons x xs ih => exact (insert_ci_perm x (sort_ci xs)).trans (ih.cons x)

theorem insert_ci_pairwise (x : String) :
    ∀ l, l.Pairwise (fun a b => case_insensitive_compare b a = false) →
      (insert_ci x l).Pairwise (fun a b => case_insensitive_compare b a = false) := by
  intro l
  induction l with
  | nil => intro _; simp [insert_ci]
  | cons y ys ih =>
    intro hp
    rw [List.pairwise_cons] at hp
    obtain ⟨hy, hys⟩ := hp
    simp only [insert_ci]
    by_cases hxy : case_insensitive_compare x y = true
    · simp only [hxy, if_true]
      refine List.Pairwise.cons ?_ (List.Pairwise.cons hy hys)
      intro z hz
      rcases List.mem_cons.mp hz with rfl | hz
      · exact Bool.eq_false_iff.mpr fun hyx => lex_lt_ci_asymm _ _ hxy hyx
      · refine Bool.eq_false_iff.mpr fun hzx => ?_
        have hzy := lex_lt_ci_trans _ _ _ hzx hxy
        have h2 : lex_lt_ci z.data y.data = false := hy z hz
        rw [h2] at hzy
        exact Bool.noConfusion hzy
    · simp only [hxy, if_false]
      refine List.Pairwise.cons ?_ (ih hys)
      intro z hz
      have hz' := (insert_ci_perm x ys).mem_iff.mp hz
      rcases List.mem_cons.mp hz' with rfl | hz'
      · exact Bool.eq_false_iff.mpr hxy
      · exact hy z hz'

theorem sort_ci_pairwise :
    ∀ l, (sort_ci l).Pairwise (fun a b => case_insensitive_compare b a = false) := by
  intro l
  induction l with
  | nil => exact List.Pairwise.nil
  | cons x xs ih => exact insert_ci_pairwise x (sort_ci xs) ih

/-- Claim C8, confirmed: `get_bottles_paths` returns exactly the
immediate sub-directories of the root (non-directories excluded) sorted
case-insensitively by full path string — the result before the optional
tail is a permutation of the scanned directory paths that is pairwise
ordered under the negation of `case_insensitive_compare` — with the
well-known default bottle path appended as the last element exactly when
the flag is set and that directory exists, regardless of where it would
sort alphabetically. -/
theorem c8_bottles_paths_sorted_default_last (dir_path : String)
    (entries : List (String × Bool)) (display_default default_exists : Bool) :
    ∃ sorted_dirs,
      get_bottles_paths dir_path entries display_default default_exists =
          sorted_dirs ++
            (if display_default && default_exists then [DefaultBottleWineDir] else []) ∧
        sorted_dirs.Perm (scan_dirs dir_path entries) ∧
        sorted_dirs.Pairwise (fun a b => case_insensitive_compare b a = false) :=
  ⟨sort_ci (scan_dirs dir_path entries), rfl,
    sort_ci_perm (scan_dirs dir_path entries),
    sort_ci_pairwise (scan_dirs dir_path entries)⟩

/-- Claim C7, confirmed: `unescape_reg_key_data` is a total function
(the model is defined for every input string and raises nothing), and an
input ending in a lone backslash — one preceded by an even run of
backslashes, so that it starts a truncated escape — produces the same
output as the input without that trailing backslash. -/
theorem c7_trailing_lone_backslash_dropped (s : String)
    (h : trailing_backslashes s.data % 2 = 0) :
    unescape_reg_key_data (s ++ ("\\")) = unescape_reg_key_data s := by
  unfold unescape_reg_key_data unescape_chars
  have hd : (s ++ ("\\")).data = s.data ++ [('\\')] := by
    rw [String.data_append]
  rw [hd, List.length_append]
  simp only [List.length_cons, List.length_nil]
  rw [show 2 * (s.data.length + (0 + 1)) = 2 * s.data.length + 2 by omega]
  exact congrArg String.mk
    ((unescape_append_bs_parts (2 * s.data.length)).1 s.data (le_refl _) h)

theorem c7_trailing_lone_backslash_dropped_witness :
    trailing_backslashes ("C:xyz").data % 2 = 0 ∧
      unescape_reg_key_data ("C:xyz" ++ ("\\")) = unescape_reg_key_data ("C:xyz") :=
  ⟨by decide, c7_trailing_lone_backslash_dropped ("C:xyz") (by decide)⟩

end WineGui
